import Mathlib

/-!
Verification of the score ledger and HTTP validation layer of the
Space Racer web app (bot.py, Space Runner/bot.py).

The scores table is modelled as a list of rows in rowid (insertion)
order; new rows are appended at the end.  SQL statements are embedded
as list operations:
  SELECT ... WHERE user_id = ?      ->  List.find?
  UPDATE ... WHERE user_id = ?      ->  List.map over the matching row
  INSERT                            ->  append at the end
  ORDER BY score DESC               ->  stable merge sort by descending score
Python truthiness (`not user_id`, `first_name or username or ...`) is
embedded explicitly.
-/

/-- One row of the scores table
(user_id INTEGER PRIMARY KEY, username TEXT, first_name TEXT,
 score INTEGER, games_played INTEGER DEFAULT 1). -/
structure ScoreRecord where
  user_id : Int
  username : Option String
  first_name : Option String
  score : Int
  games_played : Nat
deriving Repr, DecidableEq

/-- The JSON body of POST /api/score: each field may be absent or null
(both modelled as none). -/
structure RequestBody where
  user_id : Option Int
  username : Option String
  first_name : Option String
  score : Option Int
deriving Repr, DecidableEq

/-- An HTTP JSON response: either a success payload
with a message, or an error status code with an error string. -/
inductive ApiResponse where
  | ok (message : String)
  | err (code : Nat) (error : String)
deriving Repr, DecidableEq

/-- SELECT ... FROM scores WHERE user_id = ? (user_id is the primary key,
so the first matching row is the row). -/
def findRecord (t : List ScoreRecord) (uid : Int) : Option ScoreRecord :=
  t.find? (fun r => r.user_id == uid)

/-- The read-decide-write core of save_score (bot.py lines 70-96):
look the user up; on a strictly higher score update score, username,
first_name and bump games_played; otherwise bump games_played only;
for an unseen user insert a fresh row with games_played = 1.
Returns the response message together with the new table. -/
def saveScoreLedger (t : List ScoreRecord) (uid : Int)
    (username first_name : Option String) (score : Int) :
    String × List ScoreRecord :=
  match findRecord t uid with
  | some existing =>
    if score > existing.score then
      ("New high score saved!",
        t.map (fun r =>
          if r.user_id == uid then
            { r with score := score, username := username,
                     first_name := first_name,
                     games_played := r.games_played + 1 }
          else r))
    else
      ("Score updated (not a high score)",
        t.map (fun r =>
          if r.user_id == uid then
            { r with games_played := r.games_played + 1 }
          else r))
  | none =>
    ("First score saved!",
      t ++ [{ user_id := uid, username := username,
              first_name := first_name, score := score,
              games_played := 1 }])

/-- Python truthiness of the user_id field: `not user_id` is true when
the field is absent/null or equal to 0. -/
def intTruthy : Option Int → Bool
  | none => false
  | some n => n != 0

/-- Python truthiness of a dict produced by request.get_json():
`not data` is true when no JSON body was sent (none) and also when the
body is an object with no fields. -/
def RequestBody.isFalsy (b : RequestBody) : Bool :=
  b.user_id.isNone && b.username.isNone && b.first_name.isNone && b.score.isNone

/-- The POST /api/score handler (bot.py lines 49-97): validation of the
body followed by the ledger write.  Returns the response and the table
after the request. -/
def save_score (data : Option RequestBody) (t : List ScoreRecord) :
    ApiResponse × List ScoreRecord :=
  match data with
  | none => (ApiResponse.err 400 "No data provided", t)
  | some b =>
    if b.isFalsy then (ApiResponse.err 400 "No data provided", t)
    else if !intTruthy b.user_id || b.score.isNone then
      (ApiResponse.err 400 "Missing user_id or score", t)
    else
      let result := saveScoreLedger t (b.user_id.getD 0) b.username
        b.first_name (b.score.getD 0)
      (ApiResponse.ok result.1, result.2)

/-- The ordering used by ORDER BY score DESC: a comes no later than b
when the score of b is at most the score of a. -/
def scoreGe (a b : ScoreRecord) : Prop := b.score ≤ a.score

instance : DecidableRel scoreGe :=
  fun a b => inferInstanceAs (Decidable (b.score ≤ a.score))

instance : IsTotal ScoreRecord scoreGe :=
  ⟨fun a b => le_total b.score a.score⟩

instance : IsTrans ScoreRecord scoreGe :=
  ⟨fun _ _ _ hab hbc => le_trans hbc hab⟩

/-- ORDER BY score DESC: a stable sort, so rows of equal score keep
their rowid (insertion) order, matching the incidental iteration order
of the store. -/
def sortByScoreDesc (t : List ScoreRecord) : List ScoreRecord :=
  List.insertionSort scoreGe t

/-- Python `a or b` on an optional string: absent/null and the empty
string are falsy. -/
def pyOr : Option String → String → String
  | none, d => d
  | some s, d => if s = "" then d else s

/-- display_name = first_name or username or the generated placeholder
Player i (bot.py line 115). -/
def displayName (first_name username : Option String) (i : Nat) : String :=
  pyOr first_name (pyOr username ("Player " ++ toString i))

/-- One row of the leaderboard JSON array. -/
structure LeaderboardEntry where
  rank : Nat
  name : String
  score : Int
  games_played : Nat
deriving Repr, DecidableEq

/-- enumerate(scores, 1): pair each sorted row with its 1-based rank and
resolve the display name. -/
def annotateRows : Nat → List ScoreRecord → List LeaderboardEntry
  | _, [] => []
  | i, r :: rs =>
    { rank := i, name := displayName r.first_name r.username i,
      score := r.score, games_played := r.games_played } :: annotateRows (i + 1) rs

/-- The GET /api/leaderboard handler (Space Runner/bot.py lines 112-135),
parameterised by the LIMIT of the query (20 there, 10 in bot.py, 5 in
the chat variant). -/
def get_leaderboard (limit : Nat) (t : List ScoreRecord) : List LeaderboardEntry :=
  annotateRows 1 ((sortByScoreDesc t).take limit)

/-- The success payload of GET /api/user_stats
(Space Runner/bot.py lines 160-165). -/
structure UserStats where
  score : Int
  games_played : Nat
  rank : Option Nat
  total_players : Nat
deriving Repr, DecidableEq

/-- The GET /api/user_stats/user_id handler (Space Runner/bot.py lines
143-168): look the user up; if present, rank = 1-based position of
user_id in SELECT user_id FROM scores ORDER BY score DESC, and
total_players = number of rows; otherwise 404 User not found. -/
def get_user_stats (uid : Int) (t : List ScoreRecord) :
    Except (Nat × String) UserStats :=
  match findRecord t uid with
  | some r =>
    let all_users := (sortByScoreDesc t).map (fun x => x.user_id)
    Except.ok
      { score := r.score, games_played := r.games_played,
        rank := (all_users.findIdx? (fun u => u == uid)).map (· + 1),
        total_players := all_users.length }
  | none => Except.error (404, "User not found")

/-- The user_stats route as a state transformer: the handler only runs
SELECT statements, so the table it leaves behind is the table it was
given. -/
def user_stats_route (uid : Int) (t : List ScoreRecord) :
    Except (Nat × String) UserStats × List ScoreRecord :=
  (get_user_stats uid t, t)

/-- A sequence of accepted submissions for one user, applied in order
through the ledger (username and first_name held fixed). -/
def submitSeq (uid : Int) (un fn : Option String)
    (scores : List Int) (t : List ScoreRecord) : List ScoreRecord :=
  scores.foldl (fun acc s => (saveScoreLedger acc uid un fn s).2) t

/-- max(s1..sn) of a nonempty score list. -/
def maxOfScores (s : Int) (rest : List Int) : Int :=
  rest.foldl max s

example : saveScoreLedger [] 1 none none 10 =
    ("First score saved!", [⟨1, none, none, 10, 1⟩]) := by decide

example :
    (saveScoreLedger [⟨1, none, none, 10, 1⟩] 1 none none 5).1 =
      "Score updated (not a high score)" := by decide

example : get_leaderboard 10 [] = [] := rfl

example :
    get_user_stats 2 [⟨1, none, none, 10, 1⟩, ⟨2, none, none, 10, 1⟩] =
      Except.ok { score := 10, games_played := 1, rank := some 2,
                  total_players := 2 } := rfl

/-! ### Helper lemmas about the ledger -/

theorem findRecord_user_id {t : List ScoreRecord} {uid : Int} {r : ScoreRecord}
    (h : findRecord t uid = some r) : r.user_id = uid := by
  unfold findRecord at h
  simpa using List.find?_some h

theorem findRecord_mem {t : List ScoreRecord} {uid : Int} {r : ScoreRecord}
    (h : findRecord t uid = some r) : r ∈ t :=
  List.mem_of_find?_eq_some h

theorem findRecord_map_update (t : List ScoreRecord) (uid : Int)
    (g : ScoreRecord → ScoreRecord) (hg : ∀ r, (g r).user_id = r.user_id) :
    findRecord (t.map (fun r => if r.user_id == uid then g r else r)) uid
      = (findRecord t uid).map (fun r => if r.user_id == uid then g r else r) := by
  unfold findRecord
  rw [List.find?_map]
  have hfun : ((fun r : ScoreRecord => r.user_id == uid) ∘
      fun r => if r.user_id == uid then g r else r)
      = (fun r : ScoreRecord => r.user_id == uid) := by
    funext r
    by_cases h : r.user_id = uid <;> simp [Function.comp, h, hg]
  rw [hfun]

theorem saveScoreLedger_improved (t : List ScoreRecord) (uid : Int)
    (un fn : Option String) (s : Int) (r : ScoreRecord)
    (h : findRecord t uid = some r) (hs : r.score < s) :
    saveScoreLedger t uid un fn s =
      ("New high score saved!",
        t.map (fun x =>
          if x.user_id == uid then
            { x with score := s, username := un, first_name := fn,
                     games_played := x.games_played + 1 }
          else x)) := by
  unfold saveScoreLedger
  rw [h]
  dsimp only
  rw [if_pos hs]

theorem saveScoreLedger_notImproved (t : List ScoreRecord) (uid : Int)
    (un fn : Option String) (s : Int) (r : ScoreRecord)
    (h : findRecord t uid = some r) (hs : ¬ r.score < s) :
    saveScoreLedger t uid un fn s =
      ("Score updated (not a high score)",
        t.map (fun x =>
          if x.user_id == uid then
            { x with games_played := x.games_played + 1 }
          else x)) := by
  unfold saveScoreLedger
  rw [h]
  dsimp only
  rw [if_neg hs]

theorem saveScoreLedger_found (t : List ScoreRecord) (uid : Int)
    (un fn : Option String) (s : Int) (r : ScoreRecord)
    (h : findRecord t uid = some r) :
    ∃ r', findRecord (saveScoreLedger t uid un fn s).2 uid = some r' ∧
      r'.score = max r.score s ∧ r'.games_played = r.games_played + 1 := by
  have huid : r.user_id = uid := findRecord_user_id h
  by_cases hs : r.score < s
  · rw [saveScoreLedger_improved t uid un fn s r h hs]
    dsimp only
    rw [findRecord_map_update t uid
      (fun x =>
        { x with score := s, username := un, first_name := fn,
                 games_played := x.games_played + 1 })
      (fun x => rfl), h]
    refine ⟨_, rfl, ?_, ?_⟩
    · simp [huid, max_eq_right (le_of_lt hs)]
    · simp [huid]
  · rw [saveScoreLedger_notImproved t uid un fn s r h hs]
    dsimp only
    rw [findRecord_map_update t uid
      (fun x => { x with games_played := x.games_played + 1 }) (fun x => rfl), h]
    refine ⟨_, rfl, ?_, ?_⟩
    · simp [huid, max_eq_left (not_lt.mp hs)]
    · simp [huid]

theorem saveScoreLedger_notFound (t : List ScoreRecord) (uid : Int)
    (un fn : Option String) (s : Int) (h : findRecord t uid = none) :
    saveScoreLedger t uid un fn s =
      ("First score saved!",
        t ++ [{ user_id := uid, username := un, first_name := fn,
                score := s, games_played := 1 }]) := by
  unfold saveScoreLedger
  rw [h]

theorem findRecord_append_self (t : List ScoreRecord) (uid : Int)
    (rec : ScoreRecord) (h : findRecord t uid = none) (hr : rec.user_id = uid) :
    findRecord (t ++ [rec]) uid = some rec := by
  unfold findRecord at *
  rw [List.find?_append, h]
  simp [hr]

theorem submitSeq_cons (uid : Int) (un fn : Option String) (s : Int)
    (rest : List Int) (t : List ScoreRecord) :
    submitSeq uid un fn (s :: rest) t =
      submitSeq uid un fn rest (saveScoreLedger t uid un fn s).2 := rfl

theorem submitSeq_found (uid : Int) (un fn : Option String) :
    ∀ (scores : List Int) (t : List ScoreRecord) (r : ScoreRecord),
      findRecord t uid = some r →
      ∃ r', findRecord (submitSeq uid un fn scores t) uid = some r' ∧
        r'.score = scores.foldl max r.score ∧
        r'.games_played = r.games_played + scores.length
  | [], _, r, h => ⟨r, h, rfl, rfl⟩
  | s :: rest, t, r, h => by
    obtain ⟨r1, h1, hs1, hg1⟩ := saveScoreLedger_found t uid un fn s r h
    obtain ⟨r', h', hs', hg'⟩ := submitSeq_found uid un fn rest _ r1 h1
    refine ⟨r', h', ?_, ?_⟩
    · rw [hs', hs1, List.foldl_cons]
    · rw [List.length_cons]
      omega

/-! ### Claim theorems for the upsert path -/

/-- C1: starting from a table with no record for uid, a sequence of
accepted submissions with scores s :: rest leaves best_score equal to
max(s1..sn); equivalently a single submission on an existing record
sets best_score to the maximum of the previous best_score and the
submitted score, so it never lowers it. -/
theorem best_score_is_max_of_submissions (t : List ScoreRecord) (uid : Int)
    (un fn : Option String) (s : Int) (rest : List Int)
    (h : findRecord t uid = none) :
    (∃ r', findRecord (submitSeq uid un fn (s :: rest) t) uid = some r' ∧
        r'.score = maxOfScores s rest) ∧
    ∀ (t' : List ScoreRecord) (r : ScoreRecord) (s' : Int),
      findRecord t' uid = some r →
      ∃ r', findRecord (saveScoreLedger t' uid un fn s').2 uid = some r' ∧
        r'.score = max r.score s' := by
  constructor
  · rw [submitSeq_cons, saveScoreLedger_notFound t uid un fn s h]
    obtain ⟨r', h', hs', -⟩ :=
      submitSeq_found uid un fn rest _ _
        (findRecord_append_self t uid
          { user_id := uid, username := un, first_name := fn,
            score := s, games_played := 1 } h rfl)
    exact ⟨r', h', by simpa [maxOfScores] using hs'⟩
  · intro t' r s' hf
    obtain ⟨r', h', hs', -⟩ := saveScoreLedger_found t' uid un fn s' r hf
    exact ⟨r', h', hs'⟩

theorem best_score_is_max_of_submissions_witness :
    (∃ r', findRecord (submitSeq 1 none none [10, 5, 20] []) 1 = some r' ∧
        r'.score = maxOfScores 10 [5, 20]) :=
  (best_score_is_max_of_submissions [] 1 none none 10 [5, 20] rfl).1

/-- C3: after N accepted submissions for a fresh user_id the stored
games_played equals N; the record is created with games_played = 1 and
each further accepted submission adds exactly 1, whether or not it
raised best_score. -/
theorem games_played_counts_submissions (t : List ScoreRecord) (uid : Int)
    (un fn : Option String) (s : Int) (rest : List Int)
    (h : findRecord t uid = none) :
    (∃ r', findRecord (submitSeq uid un fn (s :: rest) t) uid = some r' ∧
        r'.games_played = (s :: rest).length) ∧
    ∀ (t' : List ScoreRecord) (r : ScoreRecord) (s' : Int),
      findRecord t' uid = some r →
      ∃ r', findRecord (saveScoreLedger t' uid un fn s').2 uid = some r' ∧
        r'.games_played = r.games_played + 1 := by
  constructor
  · rw [submitSeq_cons, saveScoreLedger_notFound t uid un fn s h]
    obtain ⟨r', h', -, hg'⟩ :=
      submitSeq_found uid un fn rest _ _
        (findRecord_append_self t uid
          { user_id := uid, username := un, first_name := fn,
            score := s, games_played := 1 } h rfl)
    have hg2 : r'.games_played = 1 + rest.length := hg'
    refine ⟨r', h', ?_⟩
    rw [List.length_cons]
    omega
  · intro t' r s' hf
    obtain ⟨r', h', -, hg'⟩ := saveScoreLedger_found t' uid un fn s' r hf
    exact ⟨r', h', hg'⟩

theorem games_played_counts_submissions_witness :
    (∃ r', findRecord (submitSeq 1 none none [10, 5, 20] []) 1 = some r' ∧
        r'.games_played = ([10, 5, 20] : List Int).length) :=
  (games_played_counts_submissions [] 1 none none 10 [5, 20] rfl).1

/-- C4: a submission that does not beat the stored best_score leaves
best_score, username and first_name unchanged, increments only
games_played, answers with the ScoreNotImproved message, and leaves
every other row of the table in place. -/
theorem score_not_improved_frame (t : List ScoreRecord) (uid : Int)
    (un fn : Option String) (s : Int) (r : ScoreRecord)
    (hfound : findRecord t uid = some r) (hle : s ≤ r.score) :
    (saveScoreLedger t uid un fn s).1 = "Score updated (not a high score)" ∧
    (∃ r', findRecord (saveScoreLedger t uid un fn s).2 uid = some r' ∧
      r'.score = r.score ∧ r'.username = r.username ∧
      r'.first_name = r.first_name ∧
      r'.games_played = r.games_played + 1) ∧
    ∀ x ∈ t, x.user_id ≠ uid → x ∈ (saveScoreLedger t uid un fn s).2 := by
  have huid : r.user_id = uid := findRecord_user_id hfound
  rw [saveScoreLedger_notImproved t uid un fn s r hfound (not_lt.mpr hle)]
  dsimp only
  refine ⟨rfl, ?_, ?_⟩
  · rw [findRecord_map_update t uid
      (fun x => { x with games_played := x.games_played + 1 }) (fun x => rfl),
      hfound]
    refine ⟨_, rfl, ?_, ?_, ?_, ?_⟩ <;> simp [huid]
  · intro x hx hne
    refine List.mem_map.mpr ⟨x, hx, ?_⟩
    simp [hne]

theorem score_not_improved_frame_witness :
    (saveScoreLedger [⟨1, none, none, 10, 1⟩] 1 none none 5).1 =
      "Score updated (not a high score)" ∧
    (∃ r', findRecord (saveScoreLedger [⟨1, none, none, 10, 1⟩] 1 none none 5).2 1 =
        some r' ∧
      r'.score = (⟨1, none, none, 10, 1⟩ : ScoreRecord).score ∧
      r'.username = (⟨1, none, none, 10, 1⟩ : ScoreRecord).username ∧
      r'.first_name = (⟨1, none, none, 10, 1⟩ : ScoreRecord).first_name ∧
      r'.games_played = (⟨1, none, none, 10, 1⟩ : ScoreRecord).games_played + 1) ∧
    ∀ x ∈ ([⟨1, none, none, 10, 1⟩] : List ScoreRecord), x.user_id ≠ 1 →
      x ∈ (saveScoreLedger [⟨1, none, none, 10, 1⟩] 1 none none 5).2 :=
  score_not_improved_frame [⟨1, none, none, 10, 1⟩] 1 none none 5
    ⟨1, none, none, 10, 1⟩ rfl (by decide)

/-- C6: submitting for a user_id with no record always answers with the
FirstScore message and appends exactly one new row, holding the
submitted score and games_played = 1. -/
theorem first_score_creates_record (t : List ScoreRecord) (uid : Int)
    (un fn : Option String) (s : Int) (h : findRecord t uid = none) :
    (saveScoreLedger t uid un fn s).1 = "First score saved!" ∧
    (saveScoreLedger t uid un fn s).2.length = t.length + 1 ∧
    List.countP (fun x => x.user_id == uid) (saveScoreLedger t uid un fn s).2 = 1 ∧
    findRecord (saveScoreLedger t uid un fn s).2 uid =
      some { user_id := uid, username := un, first_name := fn,
             score := s, games_played := 1 } := by
  have hzero : List.countP (fun x => x.user_id == uid) t = 0 := by
    rw [List.countP_eq_zero]
    intro x hx
    unfold findRecord at h
    simpa using List.find?_eq_none.mp h x hx
  rw [saveScoreLedger_notFound t uid un fn s h]
  refine ⟨rfl, by simp, ?_, findRecord_append_self t uid _ h rfl⟩
  rw [List.countP_append, hzero]
  simp

/-- C8: looking up stats for a user_id with no record answers 404 with
error User not found, and the handler leaves the table unchanged (it
only runs SELECT statements). -/
theorem user_stats_not_found (uid : Int) (t : List ScoreRecord)
    (h : findRecord t uid = none) :
    user_stats_route uid t = (Except.error (404, "User not found"), t) := by
  unfold user_stats_route get_user_stats
  rw [h]

theorem user_stats_not_found_witness :
    user_stats_route 999 [] = (Except.error (404, "User not found"), []) :=
  user_stats_not_found 999 [] rfl

/-- Shorthand for building a request body. -/
def mkBody (u : Option Int) (un fn : Option String) (s : Option Int) :
    RequestBody :=
  { user_id := u, username := un, first_name := fn, score := s }

theorem save_score_falsy (b : RequestBody) (t : List ScoreRecord)
    (hf : b.isFalsy = true) :
    save_score (some b) t = (ApiResponse.err 400 "No data provided", t) := by
  simp [save_score, hf]

theorem save_score_missing (b : RequestBody) (t : List ScoreRecord)
    (hf : b.isFalsy = false)
    (hv : (!intTruthy b.user_id || b.score.isNone) = true) :
    save_score (some b) t =
      (ApiResponse.err 400 "Missing user_id or score", t) := by
  simp [save_score, hf, hv]

theorem save_score_accepts (b : RequestBody) (t : List ScoreRecord)
    (ht : intTruthy b.user_id = true) (hsc : b.score.isNone = false) :
    save_score (some b) t =
      (ApiResponse.ok (saveScoreLedger t (b.user_id.getD 0) b.username
          b.first_name (b.score.getD 0)).1,
        (saveScoreLedger t (b.user_id.getD 0) b.username
          b.first_name (b.score.getD 0)).2) := by
  have hf : b.isFalsy = false := by
    unfold RequestBody.isFalsy
    cases hu : b.user_id with
    | none => rw [hu] at ht; simp [intTruthy] at ht
    | some n => simp
  simp [save_score, hf, ht, hsc]

/-- C5 as stated is false: in the body with user_id = 0 both required
fields are present, yet the handler answers 400 Missing user_id or
score instead of proceeding to the ledger, because the user_id check
uses Python truthiness. -/
theorem save_score_rejects_present_fields :
    (save_score (some (mkBody (some 0) none none (some 5))) []).1 =
      ApiResponse.err 400 "Missing user_id or score" ∧
    (mkBody (some 0) none none (some 5)).user_id.isSome = true ∧
    (mkBody (some 0) none none (some 5)).score.isSome = true :=
  ⟨rfl, rfl, rfl⟩

/-- C5 amended: 400 No data provided is answered exactly when the body
is missing or is an object with no fields; 400 Missing user_id or
score is answered exactly when the body is non-empty and user_id is
absent or falsy (0) or score is absent; when user_id is present and
nonzero and score is present, the request reaches the ledger and its
success message is returned. -/
theorem save_score_validation (data : Option RequestBody) (t : List ScoreRecord) :
    ((save_score data t).1 = ApiResponse.err 400 "No data provided" ↔
      (data = none ∨ ∃ b, data = some b ∧ b.isFalsy = true)) ∧
    ((save_score data t).1 = ApiResponse.err 400 "Missing user_id or score" ↔
      (∃ b, data = some b ∧ b.isFalsy = false ∧
        (intTruthy b.user_id = false ∨ b.score = none))) ∧
    (∀ b, data = some b → intTruthy b.user_id = true → b.score.isSome = true →
      save_score data t =
        (ApiResponse.ok (saveScoreLedger t (b.user_id.getD 0) b.username
            b.first_name (b.score.getD 0)).1,
          (saveScoreLedger t (b.user_id.getD 0) b.username
            b.first_name (b.score.getD 0)).2)) := by
  cases data with
  | none =>
    refine ⟨by simp [save_score], by simp [save_score], ?_⟩
    intro b hb
    exact absurd hb (by simp)
  | some b =>
    by_cases hf : b.isFalsy = true
    · have he := save_score_falsy b t hf
      refine ⟨?_, ?_, ?_⟩
      · simp [he, hf]
      · simp [he, hf]
      · intro b' hb' ht hsc
        obtain rfl : b = b' := by injection hb'
        simp only [RequestBody.isFalsy, Bool.and_eq_true,
          Option.isNone_iff_eq_none] at hf
        rw [hf.1.1.1] at ht
        simp [intTruthy] at ht
    · have hf' : b.isFalsy = false := by simpa using hf
      by_cases hv : (!intTruthy b.user_id || b.score.isNone) = true
      · have he := save_score_missing b t hf' hv
        simp only [Bool.or_eq_true, Bool.not_eq_true',
          Option.isNone_iff_eq_none] at hv
        refine ⟨?_, ?_, ?_⟩
        · simp [he, hf']
        · constructor
          · intro _
            exact ⟨b, rfl, hf', hv⟩
          · intro _
            rw [he]
        · intro b' hb' ht hsc
          obtain rfl : b = b' := by injection hb'
          rcases hv with hv | hv
          · rw [ht] at hv; cases hv
          · rw [hv] at hsc; cases hsc
      · simp only [Bool.or_eq_true, Bool.not_eq_true',
          Option.isNone_iff_eq_none, not_or] at hv
        have ht : intTruthy b.user_id = true := by
          rcases Bool.eq_false_or_eq_true (intTruthy b.user_id) with h | h
          · exact h
          · exact absurd h hv.1
        have hsc : b.score.isNone = false := by
          cases hs : b.score with
          | none => exact absurd hs hv.2
          | some m => rfl
        have he := save_score_accepts b t ht hsc
        have hne : b.score ≠ none := hv.2
        refine ⟨?_, ?_, ?_⟩
        · simp [he, hf']
        · simp [he, hf', ht, hne]
        · intro b' hb' _ _
          obtain rfl : b = b' := by injection hb'
          exact he

theorem save_score_validation_witness :
    ((save_score (some (mkBody (some 3) none none (some 4))) []).1 =
        ApiResponse.err 400 "No data provided" ↔
      ((some (mkBody (some 3) none none (some 4)) : Option RequestBody) = none ∨
        ∃ b, (some (mkBody (some 3) none none (some 4)) : Option RequestBody) =
          some b ∧ b.isFalsy = true)) :=
  (save_score_validation (some (mkBody (some 3) none none (some 4))) []).1

/-- C10: request validation is asymmetric: a present user_id equal to 0
is rejected as missing because of Python truthiness, while a present
score equal to 0 passes validation since score is compared against
null only. -/
theorem validation_asymmetric_user_id_zero (t : List ScoreRecord)
    (un fn : Option String) (s : Int) (uid : Int) (h : uid ≠ 0) :
    (save_score (some (mkBody (some 0) un fn (some s))) t).1 =
      ApiResponse.err 400 "Missing user_id or score" ∧
    ∃ msg, (save_score (some (mkBody (some uid) un fn (some 0))) t).1 =
      ApiResponse.ok msg := by
  constructor
  · simp [save_score, mkBody, RequestBody.isFalsy, intTruthy]
  · refine ⟨(saveScoreLedger t uid un fn 0).1, ?_⟩
    simp [save_score, mkBody, RequestBody.isFalsy, intTruthy, h]

theorem validation_asymmetric_user_id_zero_witness :
    ((save_score (some (mkBody (some 0) none none (some 7))) []).1 =
      ApiResponse.err 400 "Missing user_id or score") ∧
    ∃ msg, (save_score (some (mkBody (some 1) none none (some 0))) []).1 =
      ApiResponse.ok msg :=
  validation_asymmetric_user_id_zero [] none none 7 1 (by decide)

/-! ### Helper lemmas about the ranked queries -/

theorem sortByScoreDesc_sorted (t : List ScoreRecord) :
    (sortByScoreDesc t).Pairwise scoreGe :=
  List.sorted_insertionSort scoreGe t

theorem sortByScoreDesc_perm (t : List ScoreRecord) :
    List.Perm (sortByScoreDesc t) t :=
  List.perm_insertionSort scoreGe t

theorem annotateRows_length (i : Nat) (l : List ScoreRecord) :
    (annotateRows i l).length = l.length := by
  induction l generalizing i with
  | nil => rfl
  | cons r rs ih => simp [annotateRows, ih]

theorem annotateRows_map_score (i : Nat) (l : List ScoreRecord) :
    (annotateRows i l).map (fun e => e.score) = l.map (fun r => r.score) := by
  induction l generalizing i with
  | nil => rfl
  | cons r rs ih => simp [annotateRows, ih]

theorem annotateRows_map_rank (i : Nat) (l : List ScoreRecord) :
    (annotateRows i l).map (fun e => e.rank) = List.range' i l.length := by
  induction l generalizing i with
  | nil => rfl
  | cons r rs ih => simp [annotateRows, ih, List.range'_succ]

theorem annotateRows_mem (i : Nat) (l : List ScoreRecord) :
    ∀ e ∈ annotateRows i l, ∃ x ∈ l, e.score = x.score ∧
      e.games_played = x.games_played ∧
      e.name = displayName x.first_name x.username e.rank := by
  induction l generalizing i with
  | nil => intro e he; cases he
  | cons r rs ih =>
    intro e he
    rcases List.mem_cons.mp he with he | he
    · subst he
      exact ⟨r, List.mem_cons_self r rs, rfl, rfl, rfl⟩
    · obtain ⟨x, hx, h1, h2, h3⟩ := ih (i + 1) e he
      exact ⟨x, List.mem_cons_of_mem r hx, h1, h2, h3⟩

/-- C7: the leaderboard holds at most limit rows, in descending
best_score order, carrying the 1-based ranks 1, 2, ... in order; every
row comes from a record of the table with the display name resolved as
first_name if truthy, else username if truthy, else the generated
Player placeholder; and a table with no records gives an empty list,
not an error. -/
theorem leaderboard_spec (limit : Nat) (t : List ScoreRecord) :
    (get_leaderboard limit t).length ≤ limit ∧
    ((get_leaderboard limit t).map (fun e => e.score)).Pairwise
      (fun a b => b ≤ a) ∧
    (get_leaderboard limit t).map (fun e => e.rank) =
      List.range' 1 (get_leaderboard limit t).length ∧
    (∀ e ∈ get_leaderboard limit t, ∃ x ∈ t, e.score = x.score ∧
      e.games_played = x.games_played ∧
      e.name = pyOr x.first_name (pyOr x.username
        ("Player " ++ toString e.rank))) ∧
    get_leaderboard limit [] = [] := by
  refine ⟨?_, ?_, ?_, ?_, by simp [get_leaderboard, sortByScoreDesc, annotateRows]⟩
  · rw [get_leaderboard, annotateRows_length, List.length_take]
    exact min_le_left _ _
  · rw [get_leaderboard, annotateRows_map_score, List.pairwise_map]
    exact List.Pairwise.sublist (List.take_sublist limit _)
      (sortByScoreDesc_sorted t)
  · simp only [get_leaderboard, annotateRows_map_rank, annotateRows_length]
  · intro e he
    obtain ⟨x, hx, h1, h2, h3⟩ := annotateRows_mem 1 _ e he
    exact ⟨x, (sortByScoreDesc_perm t).mem_iff.mp (List.mem_of_mem_take hx),
      h1, h2, h3⟩

theorem first_score_creates_record_witness :
    (saveScoreLedger [] 7 (some "u") none 3).1 = "First score saved!" ∧
    (saveScoreLedger [] 7 (some "u") none 3).2.length = ([] : List ScoreRecord).length + 1 ∧
    List.countP (fun x => x.user_id == 7) (saveScoreLedger [] 7 (some "u") none 3).2 = 1 ∧
    findRecord (saveScoreLedger [] 7 (some "u") none 3).2 7 =
      some { user_id := 7, username := some "u", first_name := none,
             score := 3, games_played := 1 } :=
  first_score_creates_record [] 7 (some "u") none 3 rfl

/-- In a list sorted by descending score in which the looked-up user_id
picks out a single record r and no other element shares the score of r,
the first index holding that user_id is the number of elements with a
strictly greater score. -/
theorem findIdx_sorted_eq_count_greater (uid : Int) (r : ScoreRecord) :
    ∀ (l : List ScoreRecord) (i : Nat), l.Pairwise scoreGe → r ∈ l →
      r.user_id = uid →
      (∀ x ∈ l, x.user_id = uid → x = r) →
      (∀ x ∈ l, x ≠ r → x.score ≠ r.score) →
      l.findIdx? (fun x => x.user_id == uid) i =
        some (i + l.countP (fun x => decide (r.score < x.score)))
  | [], _, _, hmem, _, _, _ => absurd hmem (List.not_mem_nil r)
  | a :: l', i, hsorted, hmem, huid, honeId, honeScore => by
    rcases List.pairwise_cons.mp hsorted with ⟨hhead, htail⟩
    by_cases ha : a.user_id = uid
    · have har : a = r := honeId a (List.mem_cons_self a l') ha
      subst har
      have hz : l'.countP (fun x => decide (a.score < x.score)) = 0 := by
        rw [List.countP_eq_zero]
        intro x hx
        simpa using not_lt_of_le (hhead x hx)
      rw [List.findIdx?_cons, if_pos (by simpa using ha), List.countP_cons]
      simp [hz]
    · have hmem' : r ∈ l' := by
        rcases List.mem_cons.mp hmem with h | h
        · exact absurd (h ▸ huid) ha
        · exact h
      have hne : a ≠ r := fun h => ha (h ▸ huid)
      have hlt : r.score < a.score :=
        lt_of_le_of_ne (hhead r hmem')
          (fun h => honeScore a (List.mem_cons_self a l') hne (id (Eq.symm h)))
      have ih := findIdx_sorted_eq_count_greater uid r l' (i + 1) htail hmem'
        huid (fun x hx => honeId x (List.mem_cons_of_mem a hx))
        (fun x hx => honeScore x (List.mem_cons_of_mem a hx))
      rw [List.findIdx?_cons, if_neg (by simpa using ha), ih, List.countP_cons]
      simp [hlt]
      omega

/-- C2 as stated is false when two records share a best_score: on the
table holding users 1 and 2 both at score 10, get_user_stats for user 2
returns rank 2, while 1 + the number of records with a strictly greater
best_score is 1. -/
theorem rank_tie_counterexample :
    get_user_stats 2 [⟨1, none, none, 10, 1⟩, ⟨2, none, none, 10, 1⟩] =
      Except.ok { score := 10, games_played := 1, rank := some 2,
                  total_players := 2 } ∧
    1 + ([⟨1, none, none, 10, 1⟩, ⟨2, none, none, 10, 1⟩] :
        List ScoreRecord).countP (fun x => decide ((10 : Int) < x.score)) = 1 ∧
    (2 : Nat) ≠ 1 :=
  ⟨rfl, rfl, by decide⟩

/-- C2 amended: for a user whose record exists, get_user_stats returns
the score and games_played of the record, total_players equal to the
record count, and rank equal to the 1-based position of the user in the
score-descending order, which equals 1 + the number of records with a
strictly greater best_score whenever no other record shares the best
score of this user (under ties the position also counts the tied rows
that the stable order places earlier, as the counterexample shows). -/
theorem rank_stats_of_unique_score (t : List ScoreRecord) (uid : Int)
    (r : ScoreRecord) (hfound : findRecord t uid = some r)
    (hnodup : (t.map (fun x => x.user_id)).Nodup)
    (huniq : ∀ x ∈ t, x.user_id ≠ uid → x.score ≠ r.score) :
    get_user_stats uid t = Except.ok
      { score := r.score, games_played := r.games_played,
        rank := some (1 + t.countP (fun x => decide (r.score < x.score))),
        total_players := t.length } := by
  have huid : r.user_id = uid := findRecord_user_id hfound
  have hperm := sortByScoreDesc_perm t
  have hmem : r ∈ sortByScoreDesc t :=
    hperm.mem_iff.mpr (findRecord_mem hfound)
  have hinj := List.inj_on_of_nodup_map hnodup
  have honeId : ∀ x ∈ sortByScoreDesc t, x.user_id = uid → x = r := by
    intro x hx hxid
    exact hinj (hperm.mem_iff.mp hx) (findRecord_mem hfound)
      (hxid.trans huid.symm)
  have honeScore : ∀ x ∈ sortByScoreDesc t, x ≠ r → x.score ≠ r.score := by
    intro x hx hxr
    refine huniq x (hperm.mem_iff.mp hx) ?_
    intro hxid
    exact hxr (honeId x hx hxid)
  have hidx := findIdx_sorted_eq_count_greater uid r (sortByScoreDesc t) 0
    (sortByScoreDesc_sorted t) hmem huid honeId honeScore
  unfold get_user_stats
  rw [hfound]
  dsimp only
  rw [List.findIdx?_map]
  have hpred : ((fun u => u == uid) ∘ fun x : ScoreRecord => x.user_id)
      = (fun x : ScoreRecord => x.user_id == uid) := rfl
  rw [hpred, hidx]
  have hcount := hperm.countP_eq (fun x => decide (r.score < x.score))
  rw [List.length_map, hperm.length_eq, hcount]
  simp [Nat.add_comm]

theorem rank_stats_of_unique_score_witness :
    get_user_stats 2 [⟨1, none, none, 10, 1⟩, ⟨2, none, none, 5, 3⟩] =
      Except.ok
        { score := 5, games_played := 3,
          rank := some (1 + ([⟨1, none, none, 10, 1⟩, ⟨2, none, none, 5, 3⟩] :
            List ScoreRecord).countP (fun x => decide ((5 : Int) < x.score))),
          total_players := 2 } :=
  rank_stats_of_unique_score [⟨1, none, none, 10, 1⟩, ⟨2, none, none, 5, 3⟩] 2
    ⟨2, none, none, 5, 3⟩ rfl (by decide) (by decide)
